import Mathlib

/-!
Shallow embedding of the basic-block knowledge store of
`angr/knowledge_plugins/basic_blocks.py`: the block records, the
`BlockMapping` interval container with its one-shot trimming hooks, and
`BasicBlocksPlugin.add_block` with its three overlap policies.

The underlying `RangeDict` container is an external collaborator whose code is
not part of the repository sources; its insertion pass is modelled from the
spec (the report-don't-guess contract of §4.2, neighbor trimming of §3/§8,
removal of records trimmed to a degenerate range) and specialized with the
`_trim_left` / `_trim_right` overrides that `BlockMapping` defines in the
source file.
-/

/-- One stored record of the block map: `RangeItem(start, end, value)` from the
source (`end` is a Lean keyword, so the field is called `stop` here).  The
`second_chance` flag that `BlockItem.__init__` adds in the source is modelled
as an explicit argument of the insertion pass rather than as record state,
following the spec's design note on making the one-shot flag explicit. -/
structure BlockItem (α : Type) where
  start : Int
  stop : Int
  value : α
  deriving DecidableEq

variable {α : Type}

/-- Nonempty intersection of the half-open ranges `[s, e)` and `[a, b)`. -/
def rangesOverlap (s e a b : Int) : Prop := max s a < min e b

instance (s e a b : Int) : Decidable (rangesOverlap s e a b) :=
  inferInstanceAs (Decidable (max s a < min e b))

/-- The candidate range `[s, e)` intersects the stored record `r`. -/
def overlapsItem (s e : Int) (r : BlockItem α) : Prop :=
  rangesOverlap s e r.start r.stop

instance (s e : Int) (r : BlockItem α) : Decidable (overlapsItem s e r) :=
  inferInstanceAs (Decidable (rangesOverlap s e r.start r.stop))

/-- Two stored records intersect. -/
def itemsOverlap (a b : BlockItem α) : Prop :=
  rangesOverlap a.start a.stop b.start b.stop

instance (a b : BlockItem α) : Decidable (itemsOverlap a b) :=
  inferInstanceAs (Decidable (rangesOverlap a.start a.stop b.start b.stop))

/-- The ranges of the stored records are pairwise disjoint (the core invariant
of the block map). -/
def pairwiseDisjoint (l : List (BlockItem α)) : Prop :=
  l.Pairwise fun a b => ¬ itemsOverlap a b

instance (l : List (BlockItem α)) : Decidable (pairwiseDisjoint l) :=
  inferInstanceAs (Decidable (l.Pairwise _))

/-- Modelled from the spec: the base container's trim action on a stored
neighbor of the new range `[s, e)` — a left neighbor (`start < s`) keeps
`[start, s)` and any other conflicting record keeps `[e, stop)` (spec §3 and
the Trim-determinism property of §8). -/
def trimOne (s e : Int) (r : BlockItem α) : BlockItem α :=
  if r.start < s then { r with stop := s } else { r with start := e }

/-- Modelled from the spec: the neighbor-handling pass of the external
`RangeDict.__setitem__` (the Interval Sequence collaborator, spec §2/§4.2),
specialized with the `BlockMapping._trim_left` / `_trim_right` overrides from
the source.  Walking the stored records in order, each record intersecting the
new range `[s, e)` triggers the matching trim hook: the hook raises
`OverlappedBlocks` (modelled as `.error` carrying the conflicting record and
its index) unless the one-shot `second_chance` flag `sc` is set, and otherwise
consumes the flag (`this_item.second_chance = False` in the source) and lets
the base container trim the neighbor; a record trimmed to a degenerate range
is removed (spec §3).  Per the spec's report-don't-guess contract, a raising
hook aborts the whole insertion with no partial mutation. -/
def applyTrims (s e : Int) : Bool → Nat → List (BlockItem α) →
    Except (BlockItem α × Nat) (List (BlockItem α))
  | _, _, [] => .ok []
  | sc, i, r :: rs =>
    if overlapsItem s e r then
      if sc then
        match applyTrims s e false (i + 1) rs with
        | .error p => .error p
        | .ok rest =>
          .ok (if (trimOne s e r).start < (trimOne s e r).stop then
            trimOne s e r :: rest else rest)
      else
        .error (r, i)
    else
      match applyTrims s e sc (i + 1) rs with
      | .error p => .error p
      | .ok rest => .ok (r :: rest)

/-- Insertion into the ordered record list, keyed by range start (the ordered
container underlying the block map keeps its items sorted by `start`). -/
def insertSorted (n : BlockItem α) : List (BlockItem α) → List (BlockItem α)
  | [] => [n]
  | r :: rs => if n.start ≤ r.start then n :: r :: rs else r :: insertSorted n rs

/-- `BlockMapping` insertion, `self._blocks[addr:addr+size] = irsb` in the
source: build the new record, run the trimming pass over the stored records,
and either report the conflict (`OverlappedBlocks(this_item, other_item)` with
`this_item` the new record) or commit the trimmed list with the new record
inserted.  `sc` is the new record's one-shot `second_chance` flag. -/
def bm_setitem (st : List (BlockItem α)) (s e : Int) (v : α) (sc : Bool) :
    Except (BlockItem α × BlockItem α × Nat) (List (BlockItem α)) :=
  match applyTrims s e sc 0 st with
  | .error (r, i) => .error (⟨s, e, v⟩, r, i)
  | .ok st2 => .ok (insertSorted ⟨s, e, v⟩ st2)

/-- The exceptions `add_block` can surface: `ValueError` (empty block, unknown
overlap mode), `OverlappedBlocks` (carrying the two conflicting records), and
the `TypeError` produced by calling a `None` handler. -/
inductive AngrErr (α : Type) where
  | valueError : String → AngrErr α
  | overlappedBlocks : BlockItem α → BlockItem α → AngrErr α
  | typeError : AngrErr α
  deriving DecidableEq

/-- `BasicBlocksPlugin.add_block` from the source, in state-passing style: the
result pairs the exception raised by the call (if any) with the store contents
after the call.  The handler's keyword arguments are absorbed into the handler
closure.  In the handle branch the handler's in-place mutation of the stored
record `other_block` is modelled by replacing that record with the
corresponding component of the handler's output; the attempted record is not
stored, so the handler's mutation of it has no effect on the store. -/
def add_block (st : List (BlockItem α)) (addr size : Int) (irsb : α)
    (overlap_mode : String)
    (overlap_handler : Option (BlockItem α → BlockItem α → BlockItem α × BlockItem α)) :
    Option (AngrErr α) × List (BlockItem α) :=
  if size = 0 then
    (some (.valueError "Do not know how to handle an empty block"), st)
  else
    match bm_setitem st addr (addr + size) irsb false with
    | .ok st2 => (none, st2)
    | .error (thisB, otherB, idx) =>
      if overlap_mode = "handle" then
        match overlap_handler with
        | none => (some .typeError, st)
        | some h =>
          if thisB.start ≠ addr then
            (none, st.set idx (h otherB thisB).1)
          else
            (none, st.set idx (h thisB otherB).2)
      else if overlap_mode = "trim" then
        match bm_setitem st addr (addr + size) irsb true with
        | .ok st2 => (none, st2)
        | .error (t2, o2, _) => (some (.overlappedBlocks t2 o2), st)
      else if overlap_mode = "raise" then
        (some (.overlappedBlocks thisB otherB), st)
      else
        (some (.valueError "Unknown overlapped blocks handling mode"), st)

/-- One `add_block` request, for stating properties of call sequences. -/
structure AddReq (α : Type) where
  addr : Int
  size : Int
  irsb : α
  mode : String
  handler : Option (BlockItem α → BlockItem α → BlockItem α × BlockItem α)

/-- Run a sequence of `add_block` calls left to right; a call that raises
leaves the store as `add_block` left it. -/
def runAdds : List (AddReq α) → List (BlockItem α) → List (BlockItem α)
  | [], st => st
  | q :: qs, st => runAdds qs (add_block st q.addr q.size q.irsb q.mode q.handler).2

/-- Overlap of records is symmetric. -/
theorem itemsOverlap_symm {a b : BlockItem α} (h : itemsOverlap a b) : itemsOverlap b a := by
  simp only [itemsOverlap, rangesOverlap] at *
  omega

/-- Shrinking either record preserves disjointness. -/
theorem itemsOverlap_mono {a a2 b b2 : BlockItem α}
    (ha1 : a.start ≤ a2.start) (ha2 : a2.stop ≤ a.stop)
    (hb1 : b.start ≤ b2.start) (hb2 : b2.stop ≤ b.stop)
    (h : ¬ itemsOverlap a b) : ¬ itemsOverlap a2 b2 := by
  simp only [itemsOverlap, rangesOverlap] at *
  omega

/-- A trimmed neighbor is a sub-range of the original record. -/
theorem trimOne_sub {s e : Int} {r : BlockItem α} (hov : overlapsItem s e r) :
    r.start ≤ (trimOne s e r).start ∧ (trimOne s e r).stop ≤ r.stop := by
  simp only [overlapsItem, rangesOverlap] at hov
  unfold trimOne
  split
  · exact ⟨le_refl _, by show s ≤ r.stop; omega⟩
  · exact ⟨by show r.start ≤ e; omega, le_refl _⟩

/-- A trimmed neighbor no longer intersects the new range. -/
theorem trimOne_not_overlap {s e : Int} {r : BlockItem α} (hov : overlapsItem s e r) :
    ¬ overlapsItem s e (trimOne s e r) := by
  simp only [overlapsItem, rangesOverlap] at *
  unfold trimOne
  split
  · show ¬ (max s r.start < min e s)
    omega
  · show ¬ (max s e < min e r.stop)
    omega

/-- Every record surviving a successful trimming pass is disjoint from the new
range and is a sub-range of some original record. -/
theorem applyTrims_ok_mem {s e : Int} {sc : Bool} {i : Nat} {l l2 : List (BlockItem α)}
    (hok : applyTrims s e sc i l = .ok l2) :
    ∀ x ∈ l2, ¬ overlapsItem s e x ∧ ∃ y ∈ l, y.start ≤ x.start ∧ x.stop ≤ y.stop := by
  induction l generalizing sc i l2 with
  | nil =>
    simp only [applyTrims, Except.ok.injEq] at hok
    subst hok
    simp
  | cons r rs ih =>
    simp only [applyTrims] at hok
    by_cases hov : overlapsItem s e r
    · rw [if_pos hov] at hok
      cases sc with
      | false => simp at hok
      | true =>
        rw [if_pos rfl] at hok
        cases hrec : applyTrims s e false (i + 1) rs with
        | error p => rw [hrec] at hok; cases hok
        | ok rest =>
          rw [hrec] at hok
          simp only [Except.ok.injEq] at hok
          subst hok
          intro x hx
          by_cases hkeep : (trimOne s e r).start < (trimOne s e r).stop
          · rw [if_pos hkeep] at hx
            rcases List.mem_cons.mp hx with rfl | hx2
            · exact ⟨trimOne_not_overlap hov,
                r, List.mem_cons_self _ _, (trimOne_sub hov).1, (trimOne_sub hov).2⟩
            · obtain ⟨hdisj, y, hy, hsub⟩ := ih hrec x hx2
              exact ⟨hdisj, y, List.mem_cons_of_mem _ hy, hsub⟩
          · rw [if_neg hkeep] at hx
            obtain ⟨hdisj, y, hy, hsub⟩ := ih hrec x hx
            exact ⟨hdisj, y, List.mem_cons_of_mem _ hy, hsub⟩
    · rw [if_neg hov] at hok
      cases hrec : applyTrims s e sc (i + 1) rs with
      | error p => rw [hrec] at hok; cases hok
      | ok rest =>
        rw [hrec] at hok
        simp only [Except.ok.injEq] at hok
        subst hok
        intro x hx
        rcases List.mem_cons.mp hx with rfl | hx2
        · exact ⟨hov, x, List.mem_cons_self _ _, le_refl _, le_refl _⟩
        · obtain ⟨hdisj, y, hy, hsub⟩ := ih hrec x hx2
          exact ⟨hdisj, y, List.mem_cons_of_mem _ hy, hsub⟩

/-- A successful trimming pass preserves pairwise disjointness of the stored
records. -/
theorem applyTrims_ok_pairwise {s e : Int} {sc : Bool} {i : Nat}
    {l l2 : List (BlockItem α)} (hp : pairwiseDisjoint l)
    (hok : applyTrims s e sc i l = .ok l2) : pairwiseDisjoint l2 := by
  induction l generalizing sc i l2 with
  | nil =>
    simp only [applyTrims, Except.ok.injEq] at hok
    subst hok
    exact List.Pairwise.nil
  | cons r rs ih =>
    simp only [pairwiseDisjoint, List.pairwise_cons] at hp
    obtain ⟨hr, hrs⟩ := hp
    simp only [applyTrims] at hok
    by_cases hov : overlapsItem s e r
    · rw [if_pos hov] at hok
      cases sc with
      | false => simp at hok
      | true =>
        rw [if_pos rfl] at hok
        cases hrec : applyTrims s e false (i + 1) rs with
        | error p => rw [hrec] at hok; cases hok
        | ok rest =>
          rw [hrec] at hok
          simp only [Except.ok.injEq] at hok
          subst hok
          have hrest : pairwiseDisjoint rest := ih hrs hrec
          by_cases hkeep : (trimOne s e r).start < (trimOne s e r).stop
          · rw [if_pos hkeep]
            refine List.pairwise_cons.mpr ⟨?_, hrest⟩
            intro x hx
            obtain ⟨_, y, hy, hys, hye⟩ := applyTrims_ok_mem hrec x hx
            exact itemsOverlap_mono (trimOne_sub hov).1 (trimOne_sub hov).2 hys hye (hr y hy)
          · rw [if_neg hkeep]
            exact hrest
    · rw [if_neg hov] at hok
      cases hrec : applyTrims s e sc (i + 1) rs with
      | error p => rw [hrec] at hok; cases hok
      | ok rest =>
        rw [hrec] at hok
        simp only [Except.ok.injEq] at hok
        subst hok
        refine List.pairwise_cons.mpr ⟨?_, ih hrs hrec⟩
        intro x hx
        obtain ⟨_, y, hy, hys, hye⟩ := applyTrims_ok_mem hrec x hx
        exact itemsOverlap_mono (le_refl _) (le_refl _) hys hye (hr y hy)

/-- Membership in the ordered insertion. -/
theorem mem_insertSorted {n x : BlockItem α} {l : List (BlockItem α)} :
    x ∈ insertSorted n l ↔ x = n ∨ x ∈ l := by
  induction l with
  | nil => simp [insertSorted]
  | cons r rs ih =>
    unfold insertSorted
    split
    · simp [or_comm, or_assoc, or_left_comm]
    · simp only [List.mem_cons, ih]
      tauto

/-- Ordered insertion of a record disjoint from every stored record preserves
pairwise disjointness. -/
theorem pairwise_insertSorted {n : BlockItem α} {l : List (BlockItem α)}
    (h : ∀ x ∈ l, ¬ itemsOverlap n x) (hp : pairwiseDisjoint l) :
    pairwiseDisjoint (insertSorted n l) := by
  induction l with
  | nil => simp [insertSorted, pairwiseDisjoint]
  | cons r rs ih =>
    simp only [pairwiseDisjoint, List.pairwise_cons] at hp
    obtain ⟨hr, hrs⟩ := hp
    unfold insertSorted
    split
    · refine List.pairwise_cons.mpr ⟨?_, List.pairwise_cons.mpr ⟨hr, hrs⟩⟩
      intro x hx
      exact h x hx
    · refine List.pairwise_cons.mpr ⟨?_, ih (fun x hx => h x (List.mem_cons_of_mem _ hx)) hrs⟩
      intro x hx
      rcases mem_insertSorted.mp hx with rfl | hx2
      · exact fun hc => h r (List.mem_cons_self _ _) (itemsOverlap_symm hc)
      · exact hr x hx2

/-- A successful `BlockMapping` insertion preserves pairwise disjointness. -/
theorem bm_setitem_ok_pairwise {st st2 : List (BlockItem α)} {s e : Int} {v : α}
    {sc : Bool} (hp : pairwiseDisjoint st) (hok : bm_setitem st s e v sc = .ok st2) :
    pairwiseDisjoint st2 := by
  unfold bm_setitem at hok
  cases hrec : applyTrims s e sc 0 st with
  | error p => rw [hrec] at hok; cases hok
  | ok mid =>
    rw [hrec] at hok
    simp only [Except.ok.injEq] at hok
    subst hok
    refine pairwise_insertSorted ?_ (applyTrims_ok_pairwise hp hrec)
    intro x hx
    exact (applyTrims_ok_mem hrec x hx).1

/-- An insertion that intersects no stored record trims nothing. -/
theorem applyTrims_no_conflict {s e : Int} {l : List (BlockItem α)}
    (h : ∀ r ∈ l, ¬ overlapsItem s e r) (sc : Bool) (i : Nat) :
    applyTrims s e sc i l = .ok l := by
  induction l generalizing sc i with
  | nil => simp [applyTrims]
  | cons r rs ih =>
    have hr := h r (List.mem_cons_self _ _)
    have ih2 := ih (fun x hx => h x (List.mem_cons_of_mem _ hx)) sc (i + 1)
    simp [applyTrims, if_neg hr, ih2]

/-- With the one-shot flag clear, any intersecting stored record makes the
trimming pass raise. -/
theorem applyTrims_conflict_error {s e : Int} {l : List (BlockItem α)} {r : BlockItem α}
    (hm : r ∈ l) (hov : overlapsItem s e r) (i : Nat) :
    ∃ p, applyTrims s e false i l = .error p := by
  induction l generalizing i with
  | nil => cases hm
  | cons r0 rs ih =>
    by_cases h0 : overlapsItem s e r0
    · exact ⟨(r0, i), by simp [applyTrims, if_pos h0]⟩
    · rcases List.mem_cons.mp hm with rfl | hm2
      · exact absurd hov h0
      · obtain ⟨p, hp⟩ := ih hm2 (i + 1)
        exact ⟨p, by simp [applyTrims, if_neg h0, hp]⟩

/-- A raising trimming pass reports an intersecting stored record together
with its position. -/
theorem applyTrims_error_inv {s e : Int} {sc : Bool} {i j : Nat}
    {l : List (BlockItem α)} {r : BlockItem α}
    (he : applyTrims s e sc i l = .error (r, j)) :
    i ≤ j ∧ l[j - i]? = some r ∧ overlapsItem s e r := by
  induction l generalizing sc i with
  | nil => simp [applyTrims] at he
  | cons r0 rs ih =>
    simp only [applyTrims] at he
    by_cases h0 : overlapsItem s e r0
    · rw [if_pos h0] at he
      cases sc with
      | false =>
        simp only [Bool.false_eq_true, if_false, Except.error.injEq, Prod.mk.injEq] at he
        obtain ⟨rfl, rfl⟩ := he
        exact ⟨le_refl _, by simp, h0⟩
      | true =>
        rw [if_pos rfl] at he
        cases hrec : applyTrims s e false (i + 1) rs with
        | error p =>
          rw [hrec] at he
          simp only [Except.error.injEq] at he
          subst he
          obtain ⟨hij, hget, hov⟩ := ih hrec
          refine ⟨by omega, ?_, hov⟩
          have hj : j - i = (j - (i + 1)) + 1 := by omega
          rw [hj]
          simpa using hget
        | ok rest => rw [hrec] at he; simp at he
    · rw [if_neg h0] at he
      cases hrec : applyTrims s e sc (i + 1) rs with
      | error p =>
        rw [hrec] at he
        simp only [Except.error.injEq] at he
        subst he
        obtain ⟨hij, hget, hov⟩ := ih hrec
        refine ⟨by omega, ?_, hov⟩
        have hj : j - i = (j - (i + 1)) + 1 := by omega
        rw [hj]
        simpa using hget
      | ok rest => rw [hrec] at he; simp at he

/-- With two or more intersecting stored records the trimming pass raises even
when the one-shot flag is set: the first trim consumes the flag and the second
conflicting record finds it clear. -/
theorem applyTrims_two_conflicts {s e : Int} {l : List (BlockItem α)}
    (h2 : 2 ≤ l.countP fun r => decide (overlapsItem s e r)) (sc : Bool) (i : Nat) :
    ∃ p, applyTrims s e sc i l = .error p := by
  induction l generalizing sc i with
  | nil => simp at h2
  | cons r0 rs ih =>
    by_cases h0 : overlapsItem s e r0
    · cases sc with
      | false => exact ⟨(r0, i), by simp [applyTrims, if_pos h0]⟩
      | true =>
        have h1 : 0 < rs.countP fun r => decide (overlapsItem s e r) := by
          rw [List.countP_cons, if_pos (decide_eq_true h0)] at h2
          omega
        obtain ⟨r1, hr1m, hr1⟩ := List.countP_pos_iff.mp h1
        obtain ⟨p, hp⟩ := applyTrims_conflict_error hr1m (of_decide_eq_true hr1) (i + 1)
        exact ⟨p, by simp [applyTrims, if_pos h0, hp]⟩
    · have h2b : 2 ≤ rs.countP fun r => decide (overlapsItem s e r) := by
        rw [List.countP_cons, if_neg (by simpa using h0)] at h2
        omega
      obtain ⟨p, hp⟩ := ih h2b sc (i + 1)
      exact ⟨p, by simp [applyTrims, if_neg h0, hp]⟩

/-- A conflict-free `BlockMapping` insertion stores the new record as is. -/
theorem bm_setitem_no_conflict {st : List (BlockItem α)} {s e : Int} {v : α}
    (h : ∀ r ∈ st, ¬ overlapsItem s e r) (sc : Bool) :
    bm_setitem st s e v sc = .ok (insertSorted ⟨s, e, v⟩ st) := by
  unfold bm_setitem
  rw [applyTrims_no_conflict h sc 0]

/-- An insertion intersecting some stored record raises `OverlappedBlocks` on
its first attempt, carrying the new record as `this_block`. -/
theorem bm_setitem_conflict {st : List (BlockItem α)} {s e : Int} (v : α)
    (h : ∃ r ∈ st, overlapsItem s e r) :
    ∃ o i, bm_setitem st s e v false = .error (⟨s, e, v⟩, o, i) := by
  obtain ⟨r, hm, hov⟩ := h
  obtain ⟨⟨o, i⟩, hp⟩ := applyTrims_conflict_error hm hov 0
  exact ⟨o, i, by unfold bm_setitem; rw [hp]⟩

/-- What a raised `OverlappedBlocks` carries: `this_block` is the attempted
new record (so its start is the requested address), and `other_block` is the
stored record at the reported position, which intersects the new range. -/
theorem bm_setitem_error_inv {st : List (BlockItem α)} {s e : Int} {v : α}
    {sc : Bool} {t o : BlockItem α} {j : Nat}
    (he : bm_setitem st s e v sc = .error (t, o, j)) :
    t = ⟨s, e, v⟩ ∧ st[j]? = some o ∧ overlapsItem s e o := by
  unfold bm_setitem at he
  cases hrec : applyTrims s e sc 0 st with
  | error p =>
    obtain ⟨r, i⟩ := p
    rw [hrec] at he
    simp only [Except.error.injEq, Prod.mk.injEq] at he
    obtain ⟨rfl, rfl, rfl⟩ := he
    obtain ⟨-, hget, hov⟩ := applyTrims_error_inv hrec
    simpa using ⟨hget, hov⟩
  | ok mid => rw [hrec] at he; cases he

/-- With two or more intersecting stored records every `BlockMapping`
insertion attempt raises, one-shot flag or not. -/
theorem bm_setitem_two_conflicts {st : List (BlockItem α)} {s e : Int} (v : α)
    (h2 : 2 ≤ st.countP fun r => decide (overlapsItem s e r)) (sc : Bool) :
    ∃ t o i, bm_setitem st s e v sc = .error (t, o, i) := by
  obtain ⟨⟨o, i⟩, hp⟩ := applyTrims_two_conflicts h2 sc 0
  exact ⟨⟨s, e, v⟩, o, i, by unfold bm_setitem; rw [hp]⟩

/-- Any `add_block` call that does not use the handle policy leaves the store
pairwise disjoint: every path either commits a successful `BlockMapping`
insertion or raises with the store as it was. -/
theorem add_block_not_handle_pairwise {st : List (BlockItem α)} {addr size : Int}
    {v : α} {mode : String}
    {hdl : Option (BlockItem α → BlockItem α → BlockItem α × BlockItem α)}
    (hm : mode ≠ "handle") (hp : pairwiseDisjoint st) :
    pairwiseDisjoint (add_block st addr size v mode hdl).2 := by
  unfold add_block
  by_cases hsz : size = 0
  · rw [if_pos hsz]
    exact hp
  · rw [if_neg hsz]
    cases h1 : bm_setitem st addr (addr + size) v false with
    | ok st2 => exact bm_setitem_ok_pairwise hp h1
    | error p =>
      obtain ⟨t, o, i⟩ := p
      dsimp only
      rw [if_neg hm]
      by_cases ht : mode = "trim"
      · rw [if_pos ht]
        cases h2 : bm_setitem st addr (addr + size) v true with
        | ok st2 => exact bm_setitem_ok_pairwise hp h2
        | error q =>
          obtain ⟨a, b, c⟩ := q
          exact hp
      · rw [if_neg ht]
        by_cases hr : mode = "raise"
        · rw [if_pos hr]
          exact hp
        · rw [if_neg hr]
          exact hp

/-- Spine of the handle policy: on a conflict, the handler is applied exactly
once to the canonical pair (the new record first, the stored conflicting
record second), the stored conflicting record is replaced in place by the
handler's mutation of it, the attempted record is not inserted, and the call
returns success with no further checking. -/
theorem add_block_handle_conflict {st : List (BlockItem α)} {addr size : Int} {v : α}
    {t o : BlockItem α} {i : Nat}
    (hs : size ≠ 0) (he : bm_setitem st addr (addr + size) v false = .error (t, o, i))
    (h : BlockItem α → BlockItem α → BlockItem α × BlockItem α) :
    add_block st addr size v "handle" (some h) = (none, st.set i (h t o).2) := by
  have ht : t = ⟨addr, addr + size, v⟩ := (bm_setitem_error_inv he).1
  unfold add_block
  rw [if_neg hs, he]
  subst ht
  simp

/-- Running any sequence of non-handle `add_block` calls preserves pairwise
disjointness of the store. -/
theorem runAdds_pairwise {reqs : List (AddReq α)} {st : List (BlockItem α)}
    (h : ∀ q ∈ reqs, q.mode ≠ "handle") (hp : pairwiseDisjoint st) :
    pairwiseDisjoint (runAdds reqs st) := by
  induction reqs generalizing st with
  | nil => exact hp
  | cons q qs ih =>
    exact ih (fun x hx => h x (List.mem_cons_of_mem _ hx))
      (add_block_not_handle_pairwise (h q (List.mem_cons_self _ _)) hp)

/-- C1 counterexample: three `add_block` calls, all successful (Trim, Trim,
then Handle with a handler that enlarges the stored conflicting record), after
which two stored records intersect — so the disjointness claim fails for
mixes that include the Handle policy. -/
theorem c1_counterexample :
    add_block ([] : List (BlockItem Nat)) 0 8 0 "trim" none = (none, [⟨0, 8, 0⟩])
    ∧ add_block [⟨0, 8, 0⟩] 16 8 1 "trim" none = (none, [⟨0, 8, 0⟩, ⟨16, 24, 1⟩])
    ∧ (add_block [⟨0, 8, 0⟩, ⟨16, 24, 1⟩] 2 1 2 "handle"
        (some fun t o => (t, ⟨o.start, 20, o.value⟩))).1 = none
    ∧ ¬ pairwiseDisjoint (add_block [⟨0, 8, 0⟩, ⟨16, 24, 1⟩] 2 1 2 "handle"
        (some fun t o => (t, ⟨o.start, 20, o.value⟩))).2 := by
  refine ⟨by decide, by decide, by decide, by decide⟩

/-- C1 (amended): after any sequence of `add_block` calls none of which uses
the Handle policy, the ranges of the stored records are pairwise disjoint
(failed calls leave the store unchanged, so the hypothesis that no call failed
is not needed). -/
theorem c1_disjoint_without_handle (reqs : List (AddReq α))
    (h : ∀ q ∈ reqs, q.mode ≠ "handle") :
    pairwiseDisjoint (runAdds reqs []) :=
  runAdds_pairwise h List.Pairwise.nil

/-- C1 witness: a concrete two-call Trim sequence is pairwise disjoint. -/
theorem c1_witness :
    pairwiseDisjoint (runAdds
      [⟨10, 10, 0, "trim", none⟩, ⟨15, 10, 1, "trim", none⟩] ([] : List (BlockItem Nat))) :=
  c1_disjoint_without_handle _ (by decide)

/-- C2 counterexample: under the Handle policy a handler that fails to restore
disjointness (it grows the stored conflicting record over its right neighbor)
still makes `add_block` return successfully, with two stored records
intersecting afterwards — no `Conflict` error is raised. -/
theorem c2_counterexample :
    add_block ([] : List (BlockItem Nat)) 0 10 0 "trim" none = (none, [⟨0, 10, 0⟩])
    ∧ add_block [⟨0, 10, 0⟩] 20 10 1 "trim" none = (none, [⟨0, 10, 0⟩, ⟨20, 30, 1⟩])
    ∧ (add_block [⟨0, 10, 0⟩, ⟨20, 30, 1⟩] 5 3 2 "handle"
        (some fun t o => (t, ⟨o.start, 25, o.value⟩))).1 = none
    ∧ ¬ pairwiseDisjoint (add_block [⟨0, 10, 0⟩, ⟨20, 30, 1⟩] 5 3 2 "handle"
        (some fun t o => (t, ⟨o.start, 25, o.value⟩))).2 := by
  refine ⟨by decide, by decide, by decide, by decide⟩

/-- C2 (amended): under the Handle policy, when `add_block` hits an
intersection it returns successfully as soon as the handler returns, with no
disjointness check: a handler that does not restore the invariant leaves the
store with intersecting records and the call still reports success. -/
theorem c2_handle_no_detection {st : List (BlockItem α)} {addr size : Int} {v : α}
    {t o : BlockItem α} {i : Nat}
    (h : BlockItem α → BlockItem α → BlockItem α × BlockItem α)
    (hs : size ≠ 0) (he : bm_setitem st addr (addr + size) v false = .error (t, o, i))
    (hbad : ¬ pairwiseDisjoint (st.set i (h t o).2)) :
    (add_block st addr size v "handle" (some h)).1 = none ∧
      ¬ pairwiseDisjoint (add_block st addr size v "handle" (some h)).2 := by
  rw [add_block_handle_conflict hs he h]
  exact ⟨rfl, hbad⟩

/-- C2 witness: the invariant-breaking handler applied at a concrete store. -/
theorem c2_witness :
    (add_block ([⟨0, 10, 0⟩, ⟨20, 30, 1⟩] : List (BlockItem Nat)) 5 3 2 "handle"
      (some fun t o => (t, ⟨o.start, 25, o.value⟩))).1 = none ∧
    ¬ pairwiseDisjoint (add_block ([⟨0, 10, 0⟩, ⟨20, 30, 1⟩] : List (BlockItem Nat)) 5 3 2
      "handle" (some fun t o => (t, ⟨o.start, 25, o.value⟩))).2 :=
  c2_handle_no_detection _ (by decide) rfl (by decide)

/-- C3: under the Trim policy, a call whose range intersects existing records
has the insertion retried exactly once with the one-shot `second_chance` flag
set; if the retry conflicts again the call fails with `OverlappedBlocks`
(`Conflict`) and no further retry happens. -/
theorem c3_trim_single_retry {st : List (BlockItem α)} {addr size : Int} {v : α}
    {hdl : Option (BlockItem α → BlockItem α → BlockItem α × BlockItem α)}
    (hs : size ≠ 0) (hc : ∃ r ∈ st, overlapsItem addr (addr + size) r) :
    add_block st addr size v "trim" hdl =
      match bm_setitem st addr (addr + size) v true with
      | .ok st2 => (none, st2)
      | .error (t, o, _) => (some (AngrErr.overlappedBlocks t o), st) := by
  obtain ⟨o0, i0, he⟩ := bm_setitem_conflict v hc
  unfold add_block
  rw [if_neg hs, he]
  dsimp only
  rw [if_neg (by decide : ¬("trim" : String) = "handle"), if_pos rfl]

/-- C3 witness: one conflicting record, resolved by the single retry. -/
theorem c3_witness :
    add_block ([⟨10, 20, 0⟩] : List (BlockItem Nat)) 15 10 1 "trim" none =
      (none, [⟨10, 15, 0⟩, ⟨15, 25, 1⟩]) :=
  (c3_trim_single_retry (by decide) ⟨⟨10, 20, 0⟩, by decide, by decide⟩).trans (by decide)

/-- C4 counterexample: a negative size is not rejected — `add_block` with
`size = -1` returns success and stores a degenerate record, where the claim
demands an `InvalidRange` failure for every `size ≤ 0`. -/
theorem c4_counterexample :
    (add_block ([] : List (BlockItem Nat)) 100 (-1) 0 "trim" none).1 = none
    ∧ (add_block ([] : List (BlockItem Nat)) 100 (-1) 0 "trim" none).2 = [⟨100, 99, 0⟩] := by
  refine ⟨by decide, by decide⟩

/-- C4 (amended): a call with `size = 0` fails with the `ValueError`
(`InvalidRange`) raised before any mutation, under every policy, leaving the
store unchanged; negative sizes are not checked by the store. -/
theorem c4_zero_size_rejected (st : List (BlockItem α)) (addr : Int) (v : α)
    (mode : String)
    (hdl : Option (BlockItem α → BlockItem α → BlockItem α × BlockItem α)) :
    add_block st addr 0 v mode hdl =
      (some (AngrErr.valueError "Do not know how to handle an empty block"), st) := by
  unfold add_block
  rw [if_pos rfl]

/-- C5: a call that fails with `InvalidRange` (`size = 0`), with `Conflict`
under the Raise policy, or with `InvalidArgument` (Handle policy with no
handler, or an unrecognized policy string, each hitting an intersection) does
fail and leaves the store contents exactly as they were. -/
theorem c5_noop_on_rejection {st : List (BlockItem α)} {addr size : Int} {v : α}
    {mode : String}
    {hdl : Option (BlockItem α → BlockItem α → BlockItem α × BlockItem α)}
    (h : size = 0
      ∨ (size ≠ 0 ∧ (∃ r ∈ st, overlapsItem addr (addr + size) r) ∧
          (mode = "raise" ∨ (mode = "handle" ∧ hdl = none) ∨
            mode ∉ (["trim", "handle", "raise"] : List String)))) :
    (add_block st addr size v mode hdl).1 ≠ none ∧
      (add_block st addr size v mode hdl).2 = st := by
  rcases h with hz | ⟨hs, hc, hmode⟩
  · unfold add_block
    rw [if_pos hz]
    exact ⟨by simp, rfl⟩
  · obtain ⟨o0, i0, he⟩ := bm_setitem_conflict v hc
    unfold add_block
    rw [if_neg hs, he]
    dsimp only
    rcases hmode with rfl | ⟨rfl, rfl⟩ | hunk
    · rw [if_neg (by decide : ¬("raise" : String) = "handle"),
        if_neg (by decide : ¬("raise" : String) = "trim"), if_pos rfl]
      exact ⟨by simp, rfl⟩
    · rw [if_pos rfl]
      exact ⟨by simp, rfl⟩
    · have h1 : mode ≠ "handle" := fun hh => hunk (by simp [hh])
      have h2 : mode ≠ "trim" := fun hh => hunk (by simp [hh])
      have h3 : mode ≠ "raise" := fun hh => hunk (by simp [hh])
      rw [if_neg h1, if_neg h2, if_neg h3]
      exact ⟨by simp, rfl⟩

/-- C5 witness: a Raise-policy conflict at a concrete store fails and leaves
the store unchanged. -/
theorem c5_witness :
    (add_block ([⟨0, 10, 0⟩] : List (BlockItem Nat)) 5 3 1 "raise" none).1 ≠ none ∧
      (add_block ([⟨0, 10, 0⟩] : List (BlockItem Nat)) 5 3 1 "raise" none).2 = [⟨0, 10, 0⟩] :=
  c5_noop_on_rejection
    (Or.inr ⟨by decide, ⟨⟨0, 10, 0⟩, by decide, by decide⟩, Or.inl rfl⟩)

/-- C6 counterexample: a new record overlapping both an existing left neighbor
and an existing right neighbor under Trim does not succeed in one retry: the
left trim consumes the one-shot permission and the right conflict raises, so
the call fails with `OverlappedBlocks` and nothing is stored. -/
theorem c6_counterexample :
    add_block ([⟨0, 10, 0⟩, ⟨20, 30, 1⟩] : List (BlockItem Nat)) 5 20 2 "trim" none =
      (some (AngrErr.overlappedBlocks ⟨5, 25, 2⟩ ⟨20, 30, 1⟩), [⟨0, 10, 0⟩, ⟨20, 30, 1⟩]) := by
  decide

/-- C6 (amended): the one-shot `second_chance` permission is consumed by the
first trim performed, so whenever the new range intersects two or more stored
records the Trim retry fails with `Conflict`; the left- and right-neighbor
trims are not independent. -/
theorem c6_two_conflicts_error {st : List (BlockItem α)} {addr size : Int} {v : α}
    (hs : size ≠ 0)
    (h2 : 2 ≤ st.countP fun r => decide (overlapsItem addr (addr + size) r))
    (hdl : Option (BlockItem α → BlockItem α → BlockItem α × BlockItem α)) :
    ∃ t o, add_block st addr size v "trim" hdl =
      (some (AngrErr.overlappedBlocks t o), st) := by
  obtain ⟨t1, o1, i1, he1⟩ := bm_setitem_two_conflicts v h2 false
  obtain ⟨t2, o2, i2, he2⟩ := bm_setitem_two_conflicts v h2 true
  refine ⟨t2, o2, ?_⟩
  unfold add_block
  rw [if_neg hs, he1]
  dsimp only
  rw [if_neg (by decide : ¬("trim" : String) = "handle"), if_pos rfl, he2]

/-- C6 witness: a store with records on both sides of the new range. -/
theorem c6_witness :
    ∃ t o, add_block ([⟨0, 6, 0⟩, ⟨8, 14, 1⟩] : List (BlockItem Nat)) 5 5 2 "trim" none =
      (some (AngrErr.overlappedBlocks t o), [⟨0, 6, 0⟩, ⟨8, 14, 1⟩]) :=
  c6_two_conflicts_error (by decide) (by decide) none

/-- C7: inserting `[10, 20)` then `[15, 25)` under the Trim policy succeeds
both times and yields exactly the two records `[10, 15)` and `[15, 25)` — the
later insertion keeps its full range and the earlier record is shrunk out of
the overlap. -/
theorem c7_trim_determinism :
    add_block ([] : List (BlockItem Nat)) 10 10 0 "trim" none = (none, [⟨10, 20, 0⟩])
    ∧ add_block [⟨10, 20, 0⟩] 15 10 1 "trim" none =
        (none, [⟨10, 15, 0⟩, ⟨15, 25, 1⟩]) := by
  refine ⟨by decide, by decide⟩

/-- C8: under the Handle policy, on an intersection the pair is canonical
(the side passed as the new record has `start = addr` and the other side is
the stored record at the reported position), the handler is applied exactly
once to that pair, its mutation of the stored conflicting record is kept, and
no automatic re-insertion of the new record happens afterwards: the result is
exactly the old store with only the conflicting record replaced. -/
theorem c8_handle_canonical {st : List (BlockItem α)} {addr size : Int} {v : α}
    {t o : BlockItem α} {i : Nat}
    (h : BlockItem α → BlockItem α → BlockItem α × BlockItem α)
    (hs : size ≠ 0) (he : bm_setitem st addr (addr + size) v false = .error (t, o, i)) :
    t.start = addr ∧ st[i]? = some o ∧
      add_block st addr size v "handle" (some h) = (none, st.set i (h t o).2) := by
  obtain ⟨ht, hget, -⟩ := bm_setitem_error_inv he
  exact ⟨by rw [ht], hget, add_block_handle_conflict hs he h⟩

/-- C8 witness: a conforming handler shrinks the stored record to end at the
new record's start; the new record itself is not inserted. -/
theorem c8_witness :
    (⟨15, 25, 1⟩ : BlockItem Nat).start = 15 ∧
      ([⟨10, 20, 0⟩] : List (BlockItem Nat))[0]? = some ⟨10, 20, 0⟩ ∧
      add_block ([⟨10, 20, 0⟩] : List (BlockItem Nat)) 15 10 1 "handle"
        (some fun t o => (t, ⟨o.start, t.start, o.value⟩)) = (none, [⟨10, 15, 0⟩]) :=
  c8_handle_canonical _ (by decide) rfl

/-- C9 counterexample: selecting the Handle policy with no handler does not
fail when the new range intersects nothing — the call succeeds and stores the
record, where the claim demands an `InvalidArgument` failure for every such
call. -/
theorem c9_counterexample :
    add_block ([] : List (BlockItem Nat)) 10 5 0 "handle" none = (none, [⟨10, 15, 0⟩]) := by
  decide

/-- C9 (amended): a Handle-policy call with no handler fails (with the
`TypeError` from calling `None`, the malformed-argument failure) only when the
insertion intersects a stored record, and that failure leaves the store
unchanged. -/
theorem c9_handle_none_conflict {st : List (BlockItem α)} {addr size : Int} {v : α}
    (hs : size ≠ 0) (hc : ∃ r ∈ st, overlapsItem addr (addr + size) r) :
    add_block st addr size v "handle" none = (some AngrErr.typeError, st) := by
  obtain ⟨o0, i0, he⟩ := bm_setitem_conflict v hc
  unfold add_block
  rw [if_neg hs, he]
  dsimp only
  rw [if_pos rfl]

/-- C9 witness: Handle with no handler on a conflicting insertion. -/
theorem c9_witness :
    add_block ([⟨10, 20, 0⟩] : List (BlockItem Nat)) 15 10 1 "handle" none =
      (some AngrErr.typeError, [⟨10, 20, 0⟩]) :=
  c9_handle_none_conflict (by decide) ⟨⟨10, 20, 0⟩, by decide, by decide⟩

/-- C10 counterexample: with an empty store every range is disjoint from all
stored records, yet `add_block` with `size = 0` and an unrecognized policy
string fails (with the empty-block `ValueError`) and stores nothing, so the
claim's "every disjoint call succeeds" is false at `size = 0`. -/
theorem c10_counterexample :
    (add_block ([] : List (BlockItem Nat)) 100 0 0 "bogus" none).1 ≠ none
    ∧ (add_block ([] : List (BlockItem Nat)) 100 0 0 "bogus" none).2 = [] := by
  refine ⟨by decide, by decide⟩

/-- C10 (amended): for every call with `size ≠ 0` whose range intersects no
stored record, `add_block` succeeds and stores the record, whatever string is
passed as the overlap mode — an unrecognized policy is rejected only when the
insertion actually intersects an existing record. -/
theorem c10_unknown_mode_disjoint_ok {st : List (BlockItem α)} {addr size : Int} {v : α}
    (hs : size ≠ 0) (hd : ∀ r ∈ st, ¬ overlapsItem addr (addr + size) r)
    (mode : String)
    (hdl : Option (BlockItem α → BlockItem α → BlockItem α × BlockItem α)) :
    add_block st addr size v mode hdl =
      (none, insertSorted ⟨addr, addr + size, v⟩ st) := by
  unfold add_block
  rw [if_neg hs, bm_setitem_no_conflict hd false]

/-- C10 witness: a nonsense mode string on a disjoint insertion succeeds. -/
theorem c10_witness :
    add_block ([⟨0, 5, 0⟩] : List (BlockItem Nat)) 10 5 1 "frobnicate" none =
      (none, [⟨0, 5, 0⟩, ⟨10, 15, 1⟩]) :=
  (c10_unknown_mode_disjoint_ok (by decide) (by decide) "frobnicate" none).trans (by decide)
